import Mathlib

/-!
Shallow embedding of the carGPT scrape-normalize-persist pipeline.

Sources embedded here:
- `selenium_scraper.ipynb`: the `NjuskaloScraper` methods `get_ad_details`,
  `get_ad_links`, `extract_article_info`, `save_article`, `handle_link`,
  `handle_page`.
- `scripts/test_insertion_into_postrges.ipynb`: the `transform_data`
  coercion function with its per-field lambdas.
- the `ads` table schema from the database init script (`url TEXT UNIQUE`).

Python strings are modelled as Lean `String`; the Python string methods
used by the source (`split`, `replace`, `lower`, `isdigit`, `int()`,
`float()`) are modelled below.  Python exceptions are modelled as `Option`
(inside the coercion lambdas, where `transform_data` catches everything)
or as `Except PyErr` (in the scraper, where exceptions propagate).

Simplifications, each noted at its definition: `int()`/`float()` do not
accept underscores or non-ASCII digits; `float` values are carried as
exact rationals (no claim inspects a float value); `str.lower` maps
`Char.toLower` over the characters (ASCII-faithful).
-/

set_option autoImplicit false

namespace CarGPT

/-- Whitespace characters recognised by Python `str.split()` (ASCII subset). -/
def isPySpace (c : Char) : Bool :=
  c == ' ' || c == '\t' || c == '\n' || c == '\r' || c == '\x0b' || c == '\x0c'

/-- Helper for `pySplitWs`: accumulate the current word (reversed) and split
on whitespace runs, dropping empty words, as Python `str.split()` does. -/
def wsSplitAux (cur : List Char) : List Char → List (List Char)
  | [] => if cur.isEmpty then [] else [cur.reverse]
  | c :: t =>
    if isPySpace c then
      if cur.isEmpty then wsSplitAux [] t else cur.reverse :: wsSplitAux [] t
    else
      wsSplitAux (c :: cur) t

/-- Python `s.split()` (no argument): split on whitespace runs. -/
def pySplitWs (s : String) : List String :=
  (wsSplitAux [] s.data).map String.mk

/-- Split a character list on every occurrence of `sep`, keeping empty
segments; the result is never empty (Python `s.split(sep)` semantics). -/
def splitOnCh (sep : Char) : List Char → List (List Char)
  | [] => [[]]
  | c :: t =>
    if c = sep then [] :: splitOnCh sep t
    else
      match splitOnCh sep t with
      | [] => [[c]]
      | h :: r => (c :: h) :: r

/-- Python `s.split(sep)` for a single-character separator. -/
def pySplitOnChar (sep : Char) (s : String) : List String :=
  (splitOnCh sep s.data).map String.mk

/-- Decimal value of a digit list (most significant first). -/
def digitsVal (l : List Char) : Nat :=
  l.foldl (fun a c => a * 10 + (c.toNat - 48)) 0

/-- Strip leading and trailing Python whitespace. -/
def stripWs (l : List Char) : List Char :=
  ((l.dropWhile isPySpace).reverse.dropWhile isPySpace).reverse

/-- Python `int(s)`: optional surrounding whitespace, optional sign, then a
nonempty run of digits; anything else raises `ValueError` (here: `none`).
Simplification: underscores between digits and non-ASCII digits, which
CPython also accepts, are not modelled (no input in the repository uses
them). -/
def pyInt (s : String) : Option Int :=
  match stripWs s.data with
  | [] => none
  | c :: rest =>
    let core := if c = '-' ∨ c = '+' then rest else c :: rest
    if core ≠ [] ∧ core.all Char.isDigit then
      some (if c = '-' then -(digitsVal core : Int) else (digitsVal core : Int))
    else none

/-- Python `s.isdigit()` (ASCII digits). -/
def pyIsDigit (s : String) : Bool :=
  !s.data.isEmpty && s.data.all Char.isDigit

/-- Python `s.lower()`, mapped characterwise (faithful on ASCII). -/
def pyLower (s : String) : String :=
  String.mk (s.data.map Char.toLower)

/-- Does `pat` occur at the start of `l`? -/
def listStarts (pat l : List Char) : Bool :=
  match pat, l with
  | [], _ => true
  | _ :: _, [] => false
  | p :: ps, c :: cs => p == c && listStarts ps cs

/-- Does `pat` occur anywhere inside `l`?  Models the Python `in` operator
on strings (substring test). -/
def listOccurs (pat : List Char) : List Char → Bool
  | [] => pat.isEmpty
  | c :: t => listStarts pat (c :: t) || listOccurs pat t

/-- Python `pat in s` substring test. -/
def strOccurs (pat s : String) : Bool :=
  listOccurs pat.data s.data

/-- Helper for `pyReplace` with an explicit fuel argument (the fuel starts
at the haystack length; each step consumes at least one character of the
haystack when the pattern is nonempty). -/
def pyReplaceAux (pat repl : List Char) : Nat → List Char → List Char
  | _, [] => []
  | 0, l => l
  | Nat.succ fuel, c :: t =>
    if listStarts pat (c :: t) then
      repl ++ pyReplaceAux pat repl fuel ((c :: t).drop pat.length)
    else
      c :: pyReplaceAux pat repl fuel t

/-- Python `s.replace(pat, repl)`: replace every non-overlapping occurrence,
left to right.  The source never calls `replace` with an empty pattern, so
that case just returns `s`. -/
def pyReplace (s pat repl : String) : String :=
  if pat.data.isEmpty then s
  else String.mk (pyReplaceAux pat.data repl.data s.data.length s.data)

/-- A Python float value.  Finite values are carried as exact rationals:
the claims never inspect a float's numeric value, only whether the parse
succeeded, so binary rounding is not modelled. -/
inductive PyFloat where
  | finite : ℚ → PyFloat
  | infinite : Bool → PyFloat
  | nan : PyFloat
deriving DecidableEq, Repr

/-- Build the exact rational `sign * (ip.fp) * 10^exp` from the parsed
pieces, using `Rat.divInt` on integers (which computes by reduction). -/
def decimalRat (neg : Bool) (ipart fpart : List Char) (eneg : Bool) (edigits : List Char) : ℚ :=
  let mantissa : Int := (digitsVal ipart * 10 ^ fpart.length + digitsVal fpart : Nat)
  let signedMant : Int := if neg then -mantissa else mantissa
  let e := digitsVal edigits
  if eneg then Rat.divInt signedMant (10 ^ fpart.length * 10 ^ e : Nat)
  else Rat.divInt (signedMant * (10 ^ e : Nat)) (10 ^ fpart.length : Nat)

/-- Decimal part of Python `float(s)` parsing: `l` is the input after sign
stripping; accepts `digits`, `digits.digits`, `.digits`, `digits.`, with an
optional exponent. -/
def parseDecimal (neg : Bool) (l : List Char) : Option PyFloat :=
  let ipart := l.takeWhile Char.isDigit
  let rest1 := l.dropWhile Char.isDigit
  let fpart :=
    match rest1 with
    | '.' :: r => r.takeWhile Char.isDigit
    | _ => []
  let rest2 :=
    match rest1 with
    | '.' :: r => r.dropWhile Char.isDigit
    | _ => rest1
  if ipart.isEmpty ∧ fpart.isEmpty then none
  else
    match rest2 with
    | [] => some (.finite (decimalRat neg ipart fpart false []))
    | e :: r =>
      if e = 'e' ∨ e = 'E' then
        let eneg := match r with
          | '-' :: _ => true
          | _ => false
        let ed := match r with
          | '-' :: rr => rr
          | '+' :: rr => rr
          | _ => r
        if ed ≠ [] ∧ ed.all Char.isDigit then
          some (.finite (decimalRat neg ipart fpart eneg ed))
        else none
      else none

/-- Python `float(s)`: optional whitespace and sign, then `inf`, `nan`, or a
decimal literal.  Overflow to infinity on huge exponents is not modelled. -/
def pyFloat (s : String) : Option PyFloat :=
  match stripWs s.data with
  | [] => none
  | c :: rest =>
    let neg := c = '-'
    let core := if c = '-' ∨ c = '+' then rest else c :: rest
    let lower := core.map Char.toLower
    if lower = "inf".data ∨ lower = "infinity".data then some (.infinite neg)
    else if lower = "nan".data then some .nan
    else parseDecimal neg core

/-- A value produced by `transform_data`: a Python int, float, bool, or the
original string. -/
inductive PyVal where
  | VInt : Int → PyVal
  | VFloat : PyFloat → PyVal
  | VBool : Bool → PyVal
  | VStr : String → PyVal
deriving DecidableEq, Repr

/-! The per-field lambdas of `transform_data`
(`scripts/test_insertion_into_postrges.ipynb`).  Each returns `none` where
the Python lambda would raise (caught by `transform_data`'s `except`). -/

/-- `lambda x: int(x.split(".")[0]) if "." in x else int(x)` — used verbatim
for `manufacture_year`, `model_year`, and `in_traffic_since`. -/
def yearT (x : String) : Option PyVal :=
  if '.' ∈ x.data then ((pySplitOnChar '.' x).head?.bind pyInt).map PyVal.VInt
  else (pyInt x).map PyVal.VInt

/-- `lambda x: int(x.split()[0].replace(".", ""))` (mileage). -/
def mileageT (x : String) : Option PyVal :=
  ((pySplitWs x).head?.bind (fun tok => pyInt (pyReplace tok "." ""))).map PyVal.VInt

/-- `lambda x: int(x.split()[0])` (power). -/
def powerT (x : String) : Option PyVal :=
  ((pySplitWs x).head?.bind pyInt).map PyVal.VInt

/-- `lambda x: x.lower() == "da"` (service_book). -/
def serviceBookT (x : String) : Option PyVal :=
  some (PyVal.VBool (pyLower x == "da"))

/-- `lambda x: float(x.split()[0].replace(",", "."))` — used verbatim for
`fuel_consumption` and `average_CO2_emission`. -/
def floatTokT (x : String) : Option PyVal :=
  ((pySplitWs x).head?.bind (fun tok => pyFloat (pyReplace tok "," "."))).map PyVal.VFloat

/-- `lambda x: int(x.split()[0]) if x.split()[0].isdigit() else x` (owner). -/
def ownerT (x : String) : Option PyVal :=
  (pySplitWs x).head?.bind
    (fun tok => if pyIsDigit tok then (pyInt tok).map PyVal.VInt else some (PyVal.VStr x))

/-- `lambda x: int(x.replace(".", "").replace(" cm3", ""))` (displacement). -/
def displacementT (x : String) : Option PyVal :=
  (pyInt (pyReplace (pyReplace x "." "") " cm3" "")).map PyVal.VInt

/-- The `transformations` dict of `transform_data`, in source order. -/
def transformations : List (String × (String → Option PyVal)) :=
  [("manufacture_year", yearT),
   ("model_year", yearT),
   ("mileage", mileageT),
   ("power", powerT),
   ("service_book", serviceBookT),
   ("fuel_consumption", floatTokT),
   ("average_CO2_emission", floatTokT),
   ("owner", ownerT),
   ("displacement", displacementT),
   ("in_traffic_since", yearT)]

/-- One iteration of the `transform_data` loop body for the entry `(k, v)`:
apply the registered transform if any, falling back to the original string
value when the transform raises; keys without a transform pass through. -/
def transformEntry (k v : String) : String × PyVal :=
  match transformations.lookup k with
  | none => (k, PyVal.VStr v)
  | some f =>
    match f v with
    | some tv => (k, tv)
    | none => (k, PyVal.VStr v)

/-- `transform_data(data)`: the input dict is modelled as an association
list with distinct keys (a Python dict); the output dict is the entrywise
transformation, in the same order. -/
def transform_data (data : List (String × String)) : List (String × PyVal) :=
  data.map (fun kv => transformEntry kv.1 kv.2)

example : transform_data [("power", "143 kW")] = [("power", PyVal.VInt 143)] := rfl
example : transform_data [("power", "N/A")] = [("power", PyVal.VStr "N/A")] := rfl
example : transform_data [("manufacture_year", "2021. godište")] =
    [("manufacture_year", PyVal.VInt 2021)] := rfl
example : transform_data [("service_book", "Da")] = [("service_book", PyVal.VBool true)] := rfl
example : transform_data [("mileage", "155.515 km")] = [("mileage", PyVal.VInt 155515)] := rfl
example : transform_data [("displacement", "1.950 cm3")] = [("displacement", PyVal.VInt 1950)] := rfl
example : transform_data [("owner", "prvi")] = [("owner", PyVal.VStr "prvi")] := rfl
example : transform_data [("owner", "2")] = [("owner", PyVal.VInt 2)] := rfl
example : transform_data [("fuel_consumption", "23,7 l/100km")] =
    [("fuel_consumption", PyVal.VFloat (PyFloat.finite (Rat.divInt 237 10)))] := by decide

/-! Embedding of `NjuskaloScraper` (`selenium_scraper.ipynb`). -/

/-- A cell of the two-column `ClassifiedDetailBasicDetails` list.  The
source reads `cell.find_element(By.CLASS_NAME,
"ClassifiedDetailBasicDetails-textWrapContainer").text`; that text is the
`textWrap` field (the lookup is modelled as total, matching pages where
every cell has its text container). -/
structure DetailCell where
  textWrap : String
deriving DecidableEq, Repr

/-- Python dict assignment `d[k] = v`: overwrite in place if the key
exists, otherwise append at the end. -/
def dictInsert (d : List (String × String)) (k v : String) : List (String × String) :=
  if d.any (fun kv => kv.1 == k) then
    d.map (fun kv => if kv.1 == k then (k, v) else kv)
  else d ++ [(k, v)]

/-- The loop of `get_ad_details`: for each zipped `(label, value)` pair,
`ad_details[TRANSLATIONS[label]] = value`, with `KeyError` caught and the
pair dropped. -/
def gadGo (tbl : List (String × String)) :
    List (DetailCell × DetailCell) → List (String × String) → List (String × String)
  | [], acc => acc
  | p :: ps, acc =>
    match tbl.lookup p.1.textWrap with
    | some canon => gadGo tbl ps (dictInsert acc canon p.2.textWrap)
    | none => gadGo tbl ps acc

/-- `NjuskaloScraper.get_ad_details(left_column, right_column)`,
parameterised by the `TRANSLATIONS` table (a Python dict, modelled as an
association list).  Iterates `zip(left_column, right_column)` — surplus
cells of the longer column are never visited. -/
def get_ad_details (tbl : List (String × String)) (left right : List DetailCell) :
    List (String × String) :=
  gadGo tbl (left.zip right) []

/-- The marker class checked by `get_ad_links`. -/
def bannerMarker : String := "EntityList-bannerContainer"

/-- A listing-page item as consumed by `get_ad_links`.  `cls` is the
`class` attribute (`none` models `get_attribute` raising or returning a
non-string, which lands in the same `except` branch); `href` is the result
of the `article → entity-title → a → href` chain (`none` models any of
those `find_element` calls raising). -/
structure ListItem where
  cls : Option String
  href : Option String
deriving DecidableEq, Repr

/-- `NjuskaloScraper.get_ad_links(page_ads)`.  The loop body is wrapped in
`try/except` and ends in an unconditional `break`; banner items `continue`
before reaching the `break`, so the loop skips leading banner items and
stops after the first non-banner item, whether or not it yielded a link. -/
def get_ad_links : List ListItem → List String
  | [] => []
  | ad :: rest =>
    match ad.cls with
    | none => []
    | some c =>
      if strOccurs bannerMarker c then get_ad_links rest
      else
        match ad.href with
        | some u => [u]
        | none => []

/-- The datetime produced by `datetime.strptime`. -/
structure PyDateTime where
  year : Nat
  month : Nat
  day : Nat
  hour : Nat
  minute : Nat
deriving DecidableEq, Repr

/-- Greedily take one or two digits (the regexes CPython builds for `%d`,
`%m`, `%H`, `%M` match up to two digits, longest first). -/
def take2Digits (l : List Char) : Option (Nat × List Char) :=
  match l with
  | [] => none
  | c :: t =>
    if c.isDigit then
      match t with
      | c2 :: t2 => if c2.isDigit then some (digitsVal [c, c2], t2) else some (digitsVal [c], t)
      | [] => some (digitsVal [c], [])
    else none

/-- Greedily take one to four digits (`%Y`). -/
def takeUpTo4Digits (l : List Char) : Option (Nat × List Char) :=
  let ds := (l.takeWhile Char.isDigit).take 4
  if ds.isEmpty then none else some (digitsVal ds, l.drop ds.length)

/-- Consume an exact literal. -/
def expectLit (lit l : List Char) : Option (List Char) :=
  if listStarts lit l then some (l.drop lit.length) else none

def isLeapYear (y : Nat) : Bool :=
  (y % 4 == 0 && y % 100 != 0) || (y % 400 == 0)

def daysInMonth (y m : Nat) : Nat :=
  if m = 2 then (if isLeapYear y then 29 else 28)
  else if m = 4 ∨ m = 6 ∨ m = 9 ∨ m = 11 then 30
  else 31

/-- `datetime.strptime(s, "%d.%m.%Y. u %H:%M")`: the fixed format string of
`extract_article_info`.  Returns `none` where strptime raises
`ValueError` (trailing input, or out-of-range field values; the calendar
check matches `datetime`'s day-of-month validation). -/
def strptimeDdMmYYYYuHM (s : String) : Option PyDateTime := do
  let (d, r1) ← take2Digits s.data
  let r2 ← expectLit ['.'] r1
  let (m, r3) ← take2Digits r2
  let r4 ← expectLit ['.'] r3
  let (y, r5) ← takeUpTo4Digits r4
  let r6 ← expectLit ". u ".data r5
  let (hh, r7) ← take2Digits r6
  let r8 ← expectLit [':'] r7
  let (mm, r9) ← take2Digits r8
  if r9 = [] ∧ 1 ≤ m ∧ m ≤ 12 ∧ 1 ≤ d ∧ d ≤ daysInMonth y m ∧ hh ≤ 23 ∧ mm ≤ 59 ∧ 1 ≤ y then
    some ⟨y, m, d, hh, mm⟩
  else none

/-- Python exceptions that reach the scraper's top level. -/
inductive PyErr where
  | valueError
  | integrityError
  | navError
deriving DecidableEq, Repr

/-- `NjuskaloScraper.extract_article_info`, with the two columns (from
`get_ad_columns`) and the text of the
`ClassifiedDetailSystemDetails-listData` element passed in.  The source
parses the timestamp into a local `date_time_obj` — so a malformed
timestamp raises — but then returns `ad_details` without it: the parsed
value is discarded. -/
def extract_article_info (tbl : List (String × String)) (left right : List DetailCell)
    (sysDetailsText : String) : Except PyErr (List (String × String)) :=
  let ad_details := get_ad_details tbl left right
  match strptimeDdMmYYYYuHM sysDetailsText with
  | none => .error .valueError
  | some _ => .ok ad_details

/-- Python `", ".join(xs)`. -/
def joinComma : List String → String
  | [] => ""
  | [x] => x
  | x :: y :: r => x ++ ", " ++ joinComma (y :: r)

/-- The SQL text built by `NjuskaloScraper.save_article`: column names from
the record's keys, and each value interpolated into the statement wrapped
in double quotes (`f'"{val}"'`) — not a bound parameter. -/
def save_article_sql (article_info : List (String × String)) : String :=
  let columns := joinComma (article_info.map (fun kv => kv.1))
  let values := joinComma (article_info.map (fun kv => "\"" ++ kv.2 ++ "\""))
  "INSERT INTO ads (" ++ columns ++ ") VALUES (" ++ values ++ ")"

/-- The `ads` table: a list of rows, each a field-to-value map. -/
abbrev AdsDb := List (List (String × String))

/-- `NjuskaloScraper.save_article(article_info)`: executes the insert built
by `save_article_sql` against the `ads` table, whose `url` column is
declared `UNIQUE` by the database init script (and by the spec's data
model).  Only that uniqueness constraint is modelled; a duplicate `url`
makes the driver raise `IntegrityError`, which `save_article` does not
catch.  Values are assumed not to contain a double quote, so the
interpolated SQL parses back to the record itself. -/
def save_article (article_info : List (String × String)) (db : AdsDb) : Except PyErr AdsDb :=
  match article_info.lookup "url" with
  | some u =>
    if db.any (fun row => row.lookup "url" == some u) then .error .integrityError
    else .ok (db ++ [article_info])
  | none => .ok (db ++ [article_info])

/-- An ad detail page as the extractor sees it. -/
structure AdPage where
  left : List DetailCell
  right : List DetailCell
  sysDetails : String

/-- `NjuskaloScraper.handle_link(link, driver)`: navigate (`pages link`,
which may raise), extract, persist.  No `try/except` anywhere in the body:
every error propagates to the caller.  The randomized sleep has no
observable state and is not modelled. -/
def handle_link (tbl : List (String × String)) (pages : String → Except PyErr AdPage)
    (db : AdsDb) (link : String) : Except PyErr AdsDb :=
  match pages link with
  | .error e => .error e
  | .ok pg =>
    match extract_article_info tbl pg.left pg.right pg.sysDetails with
    | .error e => .error e
    | .ok info => save_article info db

/-- The loop of `NjuskaloScraper.handle_page` over the links returned by
`get_ad_links`: `for link in ad_links: self.handle_link(link, driver)` with
no `try/except`, so the first exception aborts the whole loop. -/
def handle_page (tbl : List (String × String)) (pages : String → Except PyErr AdPage)
    (links : List String) (db : AdsDb) : Except PyErr AdsDb :=
  match links with
  | [] => .ok db
  | l :: ls =>
    match handle_link tbl pages db l with
    | .error e => .error e
    | .ok db' => handle_page tbl pages ls db'

/-- Modelled from the spec: the `TRANSLATIONS` table
(`carGPT.scraper.scraper.translations`) is imported by the scraper but its
module is not in the repository; the spec (§4.1) gives the example entries
"Lokacija"→`location`, "Marka"→`make`, "Snaga motora"→`power`.  Used only
to instantiate theorems that are parameterised over an arbitrary table. -/
def TRANSLATIONS_sample : List (String × String) :=
  [("Lokacija", "location"), ("Marka", "make"), ("Snaga motora", "power")]

example :
    get_ad_details TRANSLATIONS_sample [⟨"Marka"⟩, ⟨"Nepoznato"⟩] [⟨"Renault"⟩, ⟨"xyz"⟩] =
      [("make", "Renault")] := rfl

example :
    get_ad_links
      [⟨some "EntityList-item EntityList-bannerContainer", some "https://x/banner"⟩,
       ⟨some "EntityList-item", some "https://x/ad1"⟩,
       ⟨some "EntityList-item", some "https://x/ad2"⟩] = ["https://x/ad1"] := rfl

example : strptimeDdMmYYYYuHM "09.12.2024. u 21:29" = some ⟨2024, 12, 9, 21, 29⟩ := rfl
example : strptimeDdMmYYYYuHM "2024-12-09 21:29" = none := rfl

example :
    save_article_sql [("make", "Renault"), ("model", "Clio")] =
      "INSERT INTO ads (make, model) VALUES (\"Renault\", \"Clio\")" := rfl

/-- A page environment for concrete runs: one link whose navigation raises,
every other link resolving to a well-formed detail page. -/
def pagesEx : String → Except PyErr AdPage := fun l =>
  if l = "https://x/bad" then .error .navError
  else .ok ⟨[⟨"Marka"⟩], [⟨"Renault"⟩], "09.12.2024. u 21:29"⟩

/-! ## Claim theorems -/

/-- C1 counterexample: `save_article` has no duplicate check, so with the
`url` column of `ads` declared UNIQUE the second persistence of the same
URL is not a no-op — it raises `IntegrityError` (and no caller catches
it), refuting the claim at this concrete record. -/
theorem c1_counterexample :
    save_article [("url", "https://www.njuskalo.hr/auti/a-1"), ("make", "Opel")] [] =
      .ok [[("url", "https://www.njuskalo.hr/auti/a-1"), ("make", "Opel")]] ∧
    save_article [("url", "https://www.njuskalo.hr/auti/a-1"), ("make", "Opel")]
        [[("url", "https://www.njuskalo.hr/auti/a-1"), ("make", "Opel")]] =
      .error .integrityError := ⟨rfl, rfl⟩

/-- C1 (amended): for every record whose `url` already has a row in `ads`,
a second `save_article` raises a uniqueness violation instead of being a
no-op; the table keeps its single row for that URL only because the insert
fails, and the error propagates (nothing in the scraper catches it). -/
theorem c1_amended (info : List (String × String)) (db : AdsDb) (u : String)
    (hu : info.lookup "url" = some u)
    (hdb : ∃ row ∈ db, row.lookup "url" = some u) :
    save_article info db = .error .integrityError := by
  unfold save_article
  rw [hu]
  have hany : db.any (fun row => row.lookup "url" == some u) = true := by
    rw [List.any_eq_true]
    obtain ⟨row, hr, he⟩ := hdb
    exact ⟨row, hr, by rw [he]; exact beq_self_eq_true _⟩
  simp [hany]

/-- Witness for C1 (amended) at a concrete record and database. -/
theorem c1_witness :
    (([("url", "https://x/w1"), ("price", "5000")] : List (String × String)).lookup "url" =
      some "https://x/w1") ∧
    save_article [("url", "https://x/w1"), ("price", "5000")]
        [[("url", "https://x/w1"), ("price", "5000")]] = .error .integrityError :=
  ⟨rfl, c1_amended _ _ "https://x/w1" rfl ⟨[("url", "https://x/w1"), ("price", "5000")], by simp, rfl⟩⟩

/-- C2 counterexample: `handle_page` wraps nothing in `try/except`, so a
navigation failure on the first link aborts the whole batch — the second
link, which would extract and persist fine on its own, is never processed.
This refutes the claim that only the failing ad is aborted. -/
theorem c2_counterexample :
    handle_page TRANSLATIONS_sample pagesEx ["https://x/bad", "https://x/ok"] [] =
      .error .navError ∧
    handle_link TRANSLATIONS_sample pagesEx [] "https://x/ok" =
      .ok [[("make", "Renault")]] := ⟨rfl, rfl⟩

/-- C2 (amended): an exception while handling one ad link propagates out of
`handle_page` unchanged and unconditionally — links after the failing one
are not processed.  (Per-item isolation exists only inside `get_ad_links`
and per-field inside `get_ad_details`.) -/
theorem c2_amended (tbl : List (String × String)) (pages : String → Except PyErr AdPage)
    (db : AdsDb) (l : String) (ls : List String) (e : PyErr)
    (h : handle_link tbl pages db l = .error e) :
    handle_page tbl pages (l :: ls) db = .error e := by
  simp only [handle_page, h]

/-- Witness for C2 (amended) at a concrete environment and link list. -/
theorem c2_witness :
    handle_page TRANSLATIONS_sample pagesEx ["https://x/bad"] [] = .error .navError :=
  c2_amended _ _ _ _ _ _ rfl

/-- C3: the source parses the system-details timestamp (a malformed one
would raise), but binds it to an unused local and returns the record
without it — at this input the parse succeeds, the record is produced,
and `date_created` is absent, contradicting the claim. -/
theorem c3_theorem :
    strptimeDdMmYYYYuHM "09.12.2024. u 21:29" = some ⟨2024, 12, 9, 21, 29⟩ ∧
    extract_article_info TRANSLATIONS_sample [⟨"Marka"⟩] [⟨"Renault"⟩] "09.12.2024. u 21:29" =
      .ok [("make", "Renault")] ∧
    ([("make", "Renault")] : List (String × String)).lookup "date_created" = none :=
  ⟨rfl, rfl, rfl⟩

/-- C4: for every field with a registered transform and every value on
which the transform raises, `transform_data` stores the original string
for that field, and the record keeps all of its entries (the exception is
swallowed inside the loop). -/
theorem c4_fallback (data : List (String × String)) (k v : String)
    (f : String → Option PyVal) (hmem : (k, v) ∈ data)
    (hf : transformations.lookup k = some f) (hfail : f v = none) :
    (k, PyVal.VStr v) ∈ transform_data data ∧
    (transform_data data).length = data.length := by
  constructor
  · have hentry : transformEntry k v = (k, PyVal.VStr v) := by
      simp [transformEntry, hf, hfail]
    have h2 := List.mem_map_of_mem (fun kv : String × String => transformEntry kv.1 kv.2) hmem
    simpa [transform_data, hentry] using h2
  · simp [transform_data]

/-- Witness for C4 at `power = "N/A"`: the transform raises
(`int("N/A")`), and the record retains the string `"N/A"`. -/
theorem c4_witness :
    transformations.lookup "power" = some powerT ∧
    powerT "N/A" = none ∧
    ("power", PyVal.VStr "N/A") ∈ transform_data [("power", "N/A")] :=
  ⟨rfl, rfl,
    (c4_fallback [("power", "N/A")] "power" "N/A" powerT (by simp) rfl rfl).1⟩

/-- C9: the `service_book` transform is total — through `transform_data`
every value `v` for `service_book` becomes the boolean
`v.lower() == "da"`, so the coercion-failure fallback is unreachable for
this field and a malformed value is never retained as a string. -/
theorem c9_service_book_total :
    (∀ v : String, transformEntry "service_book" v =
      ("service_book", PyVal.VBool (pyLower v == "da"))) ∧
    (∀ (data : List (String × String)) (v : String), ("service_book", v) ∈ data →
      ("service_book", PyVal.VBool (pyLower v == "da")) ∈ transform_data data) := by
  have hentry : ∀ v : String, transformEntry "service_book" v =
      ("service_book", PyVal.VBool (pyLower v == "da")) := fun v => rfl
  refine ⟨hentry, fun data v h => ?_⟩
  have h2 := List.mem_map_of_mem (fun kv : String × String => transformEntry kv.1 kv.2) h
  simpa [transform_data, hentry] using h2

/-- Witness for C9 at the malformed value `"N/A"`: it becomes the boolean
`false`, not the original string. -/
theorem c9_witness :
    ("service_book", PyVal.VBool (pyLower "N/A" == "da")) ∈
      transform_data [("service_book", "N/A")] ∧
    (pyLower "N/A" == "da") = false :=
  ⟨c9_service_book_total.2 _ "N/A" (by simp), by decide⟩

/-! Helper lemmas about substring occurrence, for C5. -/

theorem str_data_append (a b : String) : (a ++ b).data = a.data ++ b.data := rfl

theorem listStarts_append_of_starts (p l b : List Char) (h : listStarts p l = true) :
    listStarts p (l ++ b) = true := by
  induction p generalizing l with
  | nil => rfl
  | cons x xs ih =>
    cases l with
    | nil => simp [listStarts] at h
    | cons c t =>
      simp only [listStarts, Bool.and_eq_true] at h ⊢
      exact ⟨h.1, by simpa using ih t h.2⟩

theorem listStarts_refl (l : List Char) : listStarts l l = true := by
  induction l with
  | nil => rfl
  | cons c t ih => simp only [listStarts, Bool.and_eq_true]; exact ⟨by simp, ih⟩

theorem listOccurs_self_append (l r : List Char) : listOccurs l (l ++ r) = true := by
  cases l with
  | nil =>
    cases r with
    | nil => rfl
    | cons c t => simp [listOccurs, listStarts]
  | cons c t =>
    have hs : listStarts (c :: t) ((c :: t) ++ r) = true :=
      listStarts_append_of_starts _ _ _ (listStarts_refl (c :: t))
    simp only [List.cons_append, listOccurs, Bool.or_eq_true]
    exact Or.inl (by simpa using hs)

theorem listOccurs_append_right (p a b : List Char) (h : listOccurs p b = true) :
    listOccurs p (a ++ b) = true := by
  induction a with
  | nil => simpa using h
  | cons c t ih =>
    simp only [List.cons_append, listOccurs, Bool.or_eq_true]
    exact Or.inr ih

theorem listOccurs_append_left (p a b : List Char) (h : listOccurs p a = true) :
    listOccurs p (a ++ b) = true := by
  induction a with
  | nil =>
    have hp : p = [] := by simpa [listOccurs, List.isEmpty_iff] using h
    subst hp
    cases b with
    | nil => rfl
    | cons c t => simp [listOccurs, listStarts]
  | cons c t ih =>
    simp only [listOccurs, Bool.or_eq_true] at h
    simp only [List.cons_append, listOccurs, Bool.or_eq_true]
    rcases h with h1 | h2
    · exact Or.inl (by simpa using listStarts_append_of_starts p (c :: t) b h1)
    · exact Or.inr (ih h2)

theorem mem_joinComma_occurs (s : String) (l : List String) (h : s ∈ l) :
    listOccurs s.data (joinComma l).data = true := by
  induction l with
  | nil => cases h
  | cons x xs ih =>
    cases xs with
    | nil =>
      have hx : s = x := by simpa using h
      subst hx
      simpa using listOccurs_self_append s.data []
    | cons y ys =>
      rcases List.mem_cons.mp h with rfl | h2
      · simp only [joinComma, str_data_append, List.append_assoc]
        exact listOccurs_self_append _ _
      · simp only [joinComma, str_data_append, List.append_assoc]
        exact listOccurs_append_right _ _ _ (listOccurs_append_right _ _ _ (ih h2))

/-- C5 counterexample: the SQL text built by `save_article` contains the
raw field values verbatim (double-quote wrapped), so a value containing a
quote changes the statement's structure — values are not bound parameters.
This refutes the claim at a concrete record. -/
theorem c5_counterexample :
    save_article_sql [("make", "x\""), ("model", "y")] =
      "INSERT INTO ads (make, model) VALUES (\"x\"\", \"y\")" ∧
    strOccurs "x\"" (save_article_sql [("make", "x\""), ("model", "y")]) = true :=
  ⟨rfl, rfl⟩

/-- C5 (amended): `save_article` interpolates every value of the record
directly into the SQL text, wrapped in double quotes — for each field the
quoted raw value occurs as a substring of the generated statement. -/
theorem c5_amended (info : List (String × String)) (k v : String) (h : (k, v) ∈ info) :
    listOccurs ("\"" ++ v ++ "\"").data (save_article_sql info).data = true := by
  have hm : ("\"" ++ v ++ "\"") ∈ info.map (fun kv => "\"" ++ kv.2 ++ "\"") :=
    List.mem_map_of_mem (fun kv => "\"" ++ kv.2 ++ "\"") h
  have hj := mem_joinComma_occurs _ _ hm
  simp only [save_article_sql, str_data_append, List.append_assoc]
  apply listOccurs_append_right
  apply listOccurs_append_right
  apply listOccurs_append_right
  exact listOccurs_append_left _ _ _ hj

/-- Witness for C5 (amended) at a concrete record. -/
theorem c5_witness :
    (("model", "Clio") ∈ [("make", "Renault"), ("model", "Clio")]) ∧
    listOccurs ("\"" ++ "Clio" ++ "\"").data
      (save_article_sql [("make", "Renault"), ("model", "Clio")]).data = true :=
  ⟨by simp, c5_amended [("make", "Renault"), ("model", "Clio")] "model" "Clio" (by simp)⟩

/-! C6: `get_ad_links`. -/

/-- Does the item carry the banner-container marker class? -/
def isBannerItem (ad : ListItem) : Bool :=
  match ad.cls with
  | some c => strOccurs bannerMarker c
  | none => false

/-- C6: `get_ad_links` returns at most one URL, and every returned URL is
the anchor href of the first non-banner item (banner items are skipped by
`continue`; the unconditional `break` stops the loop at the first
non-banner item). -/
theorem c6_first_nonbanner (items : List ListItem) :
    (get_ad_links items).length ≤ 1 ∧
    ∀ u, u ∈ get_ad_links items →
      ∃ ad, items.find? (fun a => !isBannerItem a) = some ad ∧
        isBannerItem ad = false ∧ ad.href = some u := by
  induction items with
  | nil => exact ⟨by simp [get_ad_links], by intro u hu; simp [get_ad_links] at hu⟩
  | cons a rest ih =>
    rcases hc : a.cls with _ | c
    · have hg : get_ad_links (a :: rest) = [] := by simp [get_ad_links, hc]
      exact ⟨by simp [hg], by intro u hu; rw [hg] at hu; cases hu⟩
    · by_cases hb : strOccurs bannerMarker c = true
      · have hg : get_ad_links (a :: rest) = get_ad_links rest := by
          simp [get_ad_links, hc, hb]
        have hbi : isBannerItem a = true := by simp [isBannerItem, hc, hb]
        have hf : (a :: rest).find? (fun x => !isBannerItem x) =
            rest.find? (fun x => !isBannerItem x) :=
          List.find?_cons_of_neg _ (by simp [hbi])
        refine ⟨by rw [hg]; exact ih.1, ?_⟩
        intro u hu
        rw [hg] at hu
        rcases ih.2 u hu with ⟨ad, h1, h2, h3⟩
        exact ⟨ad, by rw [hf]; exact h1, h2, h3⟩
      · have hb' : strOccurs bannerMarker c = false := by
          revert hb; cases strOccurs bannerMarker c <;> simp
        have hbi : isBannerItem a = false := by simp [isBannerItem, hc, hb']
        have hf : (a :: rest).find? (fun x => !isBannerItem x) = some a :=
          List.find?_cons_of_pos _ (by simp [hbi])
        rcases hh : a.href with _ | u0
        · have hg : get_ad_links (a :: rest) = [] := by simp [get_ad_links, hc, hb', hh]
          exact ⟨by simp [hg], by intro u hu; rw [hg] at hu; cases hu⟩
        · have hg : get_ad_links (a :: rest) = [u0] := by simp [get_ad_links, hc, hb', hh]
          refine ⟨by simp [hg], ?_⟩
          intro u hu
          rw [hg] at hu
          have hu0 : u = u0 := by simpa using hu
          subst hu0
          exact ⟨a, hf, hbi, hh⟩

/-- Concrete listing items: a banner first, then two regular ads. -/
def itemsEx : List ListItem :=
  [⟨some "EntityList-item EntityList-bannerContainer", some "https://x/banner"⟩,
   ⟨some "EntityList-item", some "https://x/ad1"⟩,
   ⟨some "EntityList-item", some "https://x/ad2"⟩]

/-- Witness for C6: on `itemsEx` the single returned URL is the href of the
first non-banner item. -/
theorem c6_witness :
    (get_ad_links itemsEx).length ≤ 1 ∧
    ∃ ad, itemsEx.find? (fun a => !isBannerItem a) = some ad ∧
      isBannerItem ad = false ∧ ad.href = some "https://x/ad1" :=
  ⟨(c6_first_nonbanner itemsEx).1, (c6_first_nonbanner itemsEx).2 "https://x/ad1" (by decide)⟩

/-! C7 and C10: `get_ad_details`. -/

theorem gadGo_cons_none (tbl : List (String × String)) (p : DetailCell × DetailCell)
    (ps : List (DetailCell × DetailCell)) (acc : List (String × String))
    (hl : tbl.lookup p.1.textWrap = none) :
    gadGo tbl (p :: ps) acc = gadGo tbl ps acc := by
  simp [gadGo, hl]

theorem gadGo_cons_some (tbl : List (String × String)) (p : DetailCell × DetailCell)
    (ps : List (DetailCell × DetailCell)) (acc : List (String × String)) (c : String)
    (hl : tbl.lookup p.1.textWrap = some c) :
    gadGo tbl (p :: ps) acc = gadGo tbl ps (dictInsert acc c p.2.textWrap) := by
  simp [gadGo, hl]

theorem dictInsert_mem (d : List (String × String)) (k v k' v' : String)
    (h : (k', v') ∈ dictInsert d k v) : k' = k ∨ (k', v') ∈ d := by
  unfold dictInsert at h
  split at h
  · rcases List.mem_map.mp h with ⟨kv, hkv, heq⟩
    by_cases hkk : (kv.1 == k) = true
    · rw [if_pos hkk] at heq
      exact Or.inl (congrArg Prod.fst heq.symm)
    · rw [if_neg hkk] at heq
      exact Or.inr (heq ▸ hkv)
  · rcases List.mem_append.mp h with h1 | h2
    · exact Or.inr h1
    · have : (k', v') = (k, v) := by simpa using h2
      exact Or.inl (congrArg Prod.fst this)

theorem dictInsert_key_preserved (d : List (String × String)) (k v k' : String)
    (h : ∃ w, (k', w) ∈ d) : ∃ w, (k', w) ∈ dictInsert d k v := by
  obtain ⟨w, hw⟩ := h
  unfold dictInsert
  split
  · by_cases hkk : k' = k
    · subst hkk
      refine ⟨v, ?_⟩
      have := List.mem_map_of_mem (fun kv => if kv.1 == k' then (k', v) else kv) hw
      simpa using this
    · refine ⟨w, ?_⟩
      have := List.mem_map_of_mem (fun kv => if kv.1 == k then (k, v) else kv) hw
      simpa [hkk] using this
  · exact ⟨w, List.mem_append_left _ hw⟩

theorem dictInsert_mem_self (d : List (String × String)) (k v : String) :
    ∃ w, (k, w) ∈ dictInsert d k v := by
  unfold dictInsert
  split
  · next hc =>
    obtain ⟨kv, hkv, hk⟩ := List.any_eq_true.mp hc
    refine ⟨v, ?_⟩
    have := List.mem_map_of_mem (fun kv => if kv.1 == k then (k, v) else kv) hkv
    simpa [hk] using this
  · exact ⟨v, List.mem_append_right _ (by simp)⟩

theorem gadGo_mem_source (tbl : List (String × String)) (ps : List (DetailCell × DetailCell)) :
    ∀ (acc : List (String × String)) (k v : String), (k, v) ∈ gadGo tbl ps acc →
      (∃ w, (k, w) ∈ acc) ∨ ∃ p, p ∈ ps ∧ tbl.lookup p.1.textWrap = some k := by
  induction ps with
  | nil => exact fun acc k v h => Or.inl ⟨v, h⟩
  | cons p ps ih =>
    intro acc k v h
    rcases hl : tbl.lookup p.1.textWrap with _ | c
    · rw [gadGo_cons_none _ _ _ _ hl] at h
      rcases ih acc k v h with h1 | ⟨q, hq, hq2⟩
      · exact Or.inl h1
      · exact Or.inr ⟨q, List.mem_cons_of_mem _ hq, hq2⟩
    · rw [gadGo_cons_some _ _ _ _ _ hl] at h
      rcases ih _ k v h with ⟨w, hw⟩ | ⟨q, hq, hq2⟩
      · rcases dictInsert_mem _ _ _ _ _ hw with hk | h2
        · exact Or.inr ⟨p, List.mem_cons_self _ _, by rw [hl, hk]⟩
        · exact Or.inl ⟨w, h2⟩
      · exact Or.inr ⟨q, List.mem_cons_of_mem _ hq, hq2⟩

theorem gadGo_key_mono (tbl : List (String × String)) (ps : List (DetailCell × DetailCell)) :
    ∀ (acc : List (String × String)) (k : String), (∃ w, (k, w) ∈ acc) →
      ∃ w, (k, w) ∈ gadGo tbl ps acc := by
  induction ps with
  | nil => exact fun acc k h => h
  | cons p ps ih =>
    intro acc k h
    rcases hl : tbl.lookup p.1.textWrap with _ | c
    · rw [gadGo_cons_none _ _ _ _ hl]; exact ih acc k h
    · rw [gadGo_cons_some _ _ _ _ _ hl]
      exact ih _ k (dictInsert_key_preserved _ _ _ _ h)

theorem gadGo_mapped_key (tbl : List (String × String)) (ps : List (DetailCell × DetailCell)) :
    ∀ (acc : List (String × String)) (p : DetailCell × DetailCell), p ∈ ps →
      ∀ c, tbl.lookup p.1.textWrap = some c → ∃ w, (c, w) ∈ gadGo tbl ps acc := by
  induction ps with
  | nil => intro acc p hp; cases hp
  | cons q qs ih =>
    intro acc p hp c hc
    rcases List.mem_cons.mp hp with rfl | hp2
    · rw [gadGo_cons_some _ _ _ _ _ hc]
      exact gadGo_key_mono _ _ _ _ (dictInsert_mem_self _ _ _)
    · rcases hl : tbl.lookup q.1.textWrap with _ | c2
      · rw [gadGo_cons_none _ _ _ _ hl]; exact ih _ p hp2 c hc
      · rw [gadGo_cons_some _ _ _ _ _ hl]; exact ih _ p hp2 c hc

/-- C7: `get_ad_details` never raises on an unmapped label — every key of
the returned record comes from a pair whose label is in the translation
table (unmapped pairs contribute nothing), and every mapped pair's
canonical name is present in the record. -/
theorem c7_translation (tbl : List (String × String)) (left right : List DetailCell) :
    (∀ k v, (k, v) ∈ get_ad_details tbl left right →
      ∃ p, p ∈ left.zip right ∧ tbl.lookup p.1.textWrap = some k) ∧
    (∀ p, p ∈ left.zip right → ∀ c, tbl.lookup p.1.textWrap = some c →
      ∃ v, (c, v) ∈ get_ad_details tbl left right) := by
  constructor
  · intro k v h
    rcases gadGo_mem_source tbl (left.zip right) [] k v h with ⟨w, hw⟩ | h2
    · cases hw
    · exact h2
  · intro p hp c hc
    exact gadGo_mapped_key tbl (left.zip right) [] p hp c hc

/-- Two-column fixture with one mapped and one unmapped label. -/
def zipL : List DetailCell := [⟨"Marka"⟩, ⟨"Nepoznato"⟩]

def zipR : List DetailCell := [⟨"Renault"⟩, ⟨"xyz"⟩]

/-- Witness for C7: "Marka" is mapped and lands in the record as `make`;
the record's only key comes from a mapped pair. -/
theorem c7_witness :
    (∃ p, p ∈ zipL.zip zipR ∧ TRANSLATIONS_sample.lookup p.1.textWrap = some "make") ∧
    (∃ v, ("make", v) ∈ get_ad_details TRANSLATIONS_sample zipL zipR) :=
  ⟨(c7_translation TRANSLATIONS_sample zipL zipR).1 "make" "Renault" (by decide),
   (c7_translation TRANSLATIONS_sample zipL zipR).2 (⟨"Marka"⟩, ⟨"Renault"⟩) (by decide)
     "make" (by decide)⟩

theorem zip_eq_zip_take_min {α β : Type} (l : List α) (r : List β) :
    l.zip r = (l.take (min l.length r.length)).zip (r.take (min l.length r.length)) := by
  induction l generalizing r with
  | nil => simp
  | cons a l ih =>
    cases r with
    | nil => simp
    | cons b r =>
      simp only [List.zip_cons_cons, List.length_cons, Nat.succ_min_succ,
        List.take_succ_cons]
      rw [← ih]

/-- C10: with columns of different lengths `m` and `n`, `get_ad_details`
is still defined (total) and equals its own run on the columns truncated
to `min m n` — the `zip` visits exactly `min m n` positional pairs and the
surplus entries of the longer column are silently dropped. -/
theorem c10_zip_truncates (tbl : List (String × String)) (left right : List DetailCell)
    (_h : left.length ≠ right.length) :
    get_ad_details tbl left right =
      get_ad_details tbl (left.take (min left.length right.length))
        (right.take (min left.length right.length)) ∧
    (left.zip right).length = min left.length right.length := by
  refine ⟨?_, List.length_zip left right⟩
  unfold get_ad_details
  rw [← zip_eq_zip_take_min]

/-- Column fixtures of mismatched lengths for the C10 witness. -/
def cellsL : List DetailCell := [⟨"Marka"⟩, ⟨"Lokacija"⟩]

def cellsR : List DetailCell := [⟨"Renault"⟩]

/-- Witness for C10 at columns of lengths 2 and 1. -/
theorem c10_witness :
    cellsL.length ≠ cellsR.length ∧
    (get_ad_details TRANSLATIONS_sample cellsL cellsR =
      get_ad_details TRANSLATIONS_sample (cellsL.take (min cellsL.length cellsR.length))
        (cellsR.take (min cellsL.length cellsR.length)) ∧
      (cellsL.zip cellsR).length = min cellsL.length cellsR.length) :=
  ⟨by decide, c10_zip_truncates TRANSLATIONS_sample cellsL cellsR (by decide)⟩

/-! C8: the year transforms. -/

theorem splitOnCh_append_sep (t' ds : List Char) (hds : '.' ∉ ds) :
    splitOnCh '.' (ds ++ '.' :: t') = ds :: splitOnCh '.' t' := by
  induction ds with
  | nil => simp [splitOnCh]
  | cons a ds ih =>
    have ha : ¬(a = '.') := fun hEq => hds (hEq ▸ List.mem_cons_self _ _)
    have hds' : '.' ∉ ds := fun hmem => hds (List.mem_cons_of_mem _ hmem)
    simp only [List.cons_append, splitOnCh, if_neg ha, List.append_eq, ih hds']

/-- C8: for the three year fields, the registered transform is the
split-on-first-dot lambda, and for every digit prefix `ds` (no dot) that
`int()` parses to `y`, both the bare form `ds` and the dotted form
`ds ++ "." ++ t` coerce to the integer `y`. -/
theorem c8_year (k ds t : String) (y : ℤ)
    (hk : k = "manufacture_year" ∨ k = "model_year" ∨ k = "in_traffic_since")
    (hdot : '.' ∉ ds.data) (hy : pyInt ds = some y) :
    transformations.lookup k = some yearT ∧
    yearT ds = some (PyVal.VInt y) ∧
    yearT (ds ++ "." ++ t) = some (PyVal.VInt y) := by
  refine ⟨?_, ?_, ?_⟩
  · rcases hk with rfl | rfl | rfl <;> rfl
  · unfold yearT
    rw [if_neg hdot, hy]
    rfl
  · have hdata : (ds ++ "." ++ t).data = ds.data ++ '.' :: t.data := by
      simp [str_data_append]
    unfold yearT
    rw [if_pos (by rw [hdata]; exact List.mem_append_right _ (List.mem_cons_self _ _))]
    unfold pySplitOnChar
    rw [hdata, splitOnCh_append_sep _ _ hdot]
    simp only [List.map_cons, List.head?_cons]
    rw [show String.mk ds.data = ds from rfl]
    simp [hy]

/-- Witness for C8 at `"2021. godište"`. -/
theorem c8_witness :
    pyInt "2021" = some 2021 ∧
    ("2021" ++ "." ++ " godište" : String) = "2021. godište" ∧
    yearT ("2021" ++ "." ++ " godište") = some (PyVal.VInt 2021) :=
  ⟨rfl, rfl,
    (c8_year "manufacture_year" "2021" " godište" 2021 (Or.inl rfl) (by decide) rfl).2.2⟩

end CarGPT
